import Mathlib

/-!
Shallow embedding of the broker order monitor
(`crates/broker/src/order_monitor.rs`): the capacity calculus, the
deadline / target-time helpers of `get_valid_orders`, the admission
filter `apply_capacity_limits`, the gas-cost helper
`calculate_order_gas_cost_wei`, the `skip_order` cache invalidation, and
the error classification of the `MarketError::Error` arm of `lock_order`.

Machine integers (`u32`, `u64`, `u128`, `U256`) are modelled as `Nat`;
the only wrap-sensitive operations in the modelled code are
`saturating_sub` (which is exactly `Nat` subtraction) and
`saturating_add` / `U256` sums whose operands are far below `2^256` in
the modelled range, so `Nat` addition and multiplication are faithful.
Rust `String` values that the code inspects character-wise are modelled
as `List Char`.  External collaborators (database, chain monitor,
provider, `utils::estimate_gas_to_*`) are modelled by passing their
point-in-time answers as explicit arguments.
-/

/-- The three fulfillment types of an order (`FulfillmentType` in the
broker crate). -/
inductive FulfillmentType where
  | LockAndFulfill
  | FulfillAfterLockExpire
  | FulfillWithoutLocking
deriving DecidableEq, Repr

/-- Model of `OrderRequest` together with the environment-determined
quantities the order monitor reads from it.  `expiration` and `expiry`
model the methods `expiration()` and `expiry()`; `lock_expires_at`
models `request.lock_expires_at()`.  `lock_gas_estimate` and
`fulfill_gas_estimate` record the answers of `utils::estimate_gas_to_lock`
and `utils::estimate_gas_to_fulfill` for this order (external pure
estimators, passed as data). -/
structure OrderRequest where
  id : Nat
  is_primary : Bool
  expiration : Nat
  expiry : Nat
  lock_expires_at : Nat
  target_timestamp : Option Nat
  total_cycles : Option Nat
  fulfillment_type : FulfillmentType
  lock_gas_estimate : Nat
  fulfill_gas_estimate : Nat
deriving DecidableEq, Repr

/-- `const MAX_PROVING_BATCH_SIZE: u32 = 10;` -/
def MAX_PROVING_BATCH_SIZE : Nat := 10

/-- `enum Capacity { Available(u32), Unlimited }` -/
inductive Capacity where
  | Available (capacity : Nat)
  | Unlimited
deriving DecidableEq, Repr

/-- `Capacity::request_capacity`, translated clause by clause from the
source. -/
def Capacity.request_capacity : Capacity → Nat → Nat
  | Capacity.Available capacity, request =>
      if request > capacity then
        min capacity MAX_PROVING_BATCH_SIZE
      else
        min request MAX_PROVING_BATCH_SIZE
  | Capacity.Unlimited, request => min MAX_PROVING_BATCH_SIZE request

/-- The fields of `OrderMonitorConfig` that the modelled code reads.
(`order_commitment_priority` and `priority_addresses` only feed the
`is_primary` classification, which is recorded on each order.) -/
structure OrderMonitorConfig where
  min_deadline : Nat
  peak_prove_khz : Option Nat
  max_concurrent_proofs : Option Nat
  additional_proof_cycles : Nat
  batch_buffer_time_secs : Nat
deriving DecidableEq, Repr

/-- `get_proving_order_capacity`: `None` means unlimited; otherwise the
available slots are `max.saturating_sub(committed_orders_count)`
(`Nat` subtraction is saturating). -/
def get_proving_order_capacity (max_concurrent_proofs : Option Nat)
    (committed_orders_count : Nat) : Capacity :=
  match max_concurrent_proofs with
  | none => Capacity.Unlimited
  | some max => Capacity.Available (max - committed_orders_count)

/-- The nested helper `is_within_deadline` of `get_valid_orders`.
`current_block_timestamp` is chain time; `now_wall` stands for the
`now_timestamp()` wall-clock read; `expiration.saturating_sub(now)` is
`Nat` subtraction. -/
def is_within_deadline (order : OrderRequest)
    (current_block_timestamp now_wall min_deadline : Nat) : Bool :=
  let expiration := order.expiry
  if expiration < current_block_timestamp then
    false
  else if expiration - now_wall < min_deadline then
    false
  else
    true

/-- The nested helper `is_target_time_reached` of `get_valid_orders`. -/
def is_target_time_reached (order : OrderRequest)
    (current_block_timestamp : Nat) : Bool :=
  match order.target_timestamp with
  | some target_timestamp =>
      if current_block_timestamp < target_timestamp then false else true
  | none => false

/-- ASCII model of Rust `str::to_lowercase` (addresses and the error
messages inspected here are ASCII). -/
def toLowerList (s : List Char) : List Char := s.map Char.toLower

/-- `needle.isPrefixOf hay` on character lists (Rust substring search
primitive). -/
def isPrefixOfList : List Char → List Char → Bool
  | [], _ => true
  | _ :: _, [] => false
  | a :: as, b :: bs => a == b && isPrefixOfList as bs

/-- Rust `str::contains(needle)`: some suffix of `hay` starts with
`needle`. -/
def containsSubList (hay needle : List Char) : Bool :=
  match hay with
  | [] => isPrefixOfList needle []
  | c :: t => isPrefixOfList needle (c :: t) || containsSubList t needle

/-- Rust `str::replace("0x", "")`: delete every (left-to-right,
non-overlapping) occurrence of `0x`. -/
def replaceAll0x : List Char → List Char
  | '0' :: 'x' :: rest => replaceAll0x rest
  | c :: rest => c :: replaceAll0x rest
  | [] => []

/-- Rust `str::trim_start_matches("0x")`: delete every leading
repetition of `0x`. -/
def trimStartMatches0x : List Char → List Char
  | '0' :: 'x' :: rest => trimStartMatches0x rest
  | l => l

/-- `enum OrderMonitorErr` (payload strings as `List Char`). -/
inductive OrderMonitorErr where
  | LockTxFailed (msg : List Char)
  | LockTxNotConfirmed (msg : List Char)
  | InsufficientBalance
  | AlreadyLocked
  | RpcErr (msg : List Char)
  | UnexpectedError (msg : List Char)
deriving DecidableEq, Repr

/-- `CodedError::code` for `OrderMonitorErr`. -/
def OrderMonitorErr.code : OrderMonitorErr → List Char
  | OrderMonitorErr.LockTxNotConfirmed _ => "[B-OM-006]".toList
  | OrderMonitorErr.LockTxFailed _ => "[B-OM-007]".toList
  | OrderMonitorErr.AlreadyLocked => "[B-OM-009]".toList
  | OrderMonitorErr.InsufficientBalance => "[B-OM-010]".toList
  | OrderMonitorErr.RpcErr _ => "[B-OM-011]".toList
  | OrderMonitorErr.UnexpectedError _ => "[B-OM-500]".toList

/-- The `MarketError::Error(e)` arm of the error mapping inside
`lock_order`: `prover_addr` is the prover's address rendered as a
string (`self.prover_addr.to_string()`), `e` the flattened error
message.  Translated clause by clause from the source. -/
def lock_order_generic_error (prover_addr e : List Char) : OrderMonitorErr :=
  let prover_addr_str := replaceAll0x (toLowerList prover_addr)
  if containsSubList e "InsufficientBalance".toList then
    if containsSubList (toLowerList e) prover_addr_str then
      OrderMonitorErr.InsufficientBalance
    else
      OrderMonitorErr.LockTxFailed
        ("Requestor has insufficient balance at lock time: ".toList ++ e)
  else if containsSubList e "RequestIsLocked".toList then
    OrderMonitorErr.AlreadyLocked
  else
    OrderMonitorErr.UnexpectedError e

/-- The comparator of the `orders.sort_by` call in
`apply_capacity_limits`: ascending lexicographic on
`(primary ? 0 : 1, expiration())`; `order_sort_le a b` holds when the
comparator returns `Less` or `Equal`. -/
def order_sort_le (a b : OrderRequest) : Prop :=
  (if a.is_primary then 0 else 1) < (if b.is_primary then (0 : Nat) else 1) ∨
    ((if a.is_primary then 0 else 1) = (if b.is_primary then (0 : Nat) else 1) ∧
      a.expiration ≤ b.expiration)

instance (a b : OrderRequest) : Decidable (order_sort_le a b) := by
  unfold order_sort_le
  exact inferInstance

instance : IsTotal OrderRequest order_sort_le := by
  constructor
  intro a b
  unfold order_sort_le
  omega

instance : IsTrans OrderRequest order_sort_le := by
  constructor
  intro a b c hab hbc
  unfold order_sort_le at hab hbc ⊢
  omega

/-- The `orders.sort_by(...)` step of `apply_capacity_limits`: a stable
sort by `order_sort_le` (Rust `sort_by` is stable; a stable insertion
sort has the same extensional behaviour). -/
def sort_candidates (orders : List OrderRequest) : List OrderRequest :=
  List.insertionSort order_sort_le orders

/-- The greedy admission loop at the end of `apply_capacity_limits`:
walks the sorted candidates, breaks once `capacity_granted` orders are
accumulated, and `continue`s (without breaking) past any candidate whose
cost `gas_price * estimate_gas_to_fulfill(order)` would push
`running_cost` above `available_balance_wei`. -/
def greedy_admission_loop (gas_price available_balance_wei capacity_granted : Nat) :
    List OrderRequest → List OrderRequest → Nat → List OrderRequest
  | [], final_orders, _ => final_orders.reverse
  | order :: rest, final_orders, running_cost =>
    if capacity_granted ≤ final_orders.length then
      final_orders.reverse
    else
      let gas_units := order.fulfill_gas_estimate
      let total_cost := gas_price * gas_units
      if available_balance_wei < running_cost + total_cost then
        greedy_admission_loop gas_price available_balance_wei capacity_granted rest
          final_orders running_cost
      else
        greedy_admission_loop gas_price available_balance_wei capacity_granted rest
          (order :: final_orders) (running_cost + total_cost)

/-- `apply_capacity_limits`, translated step by step from the source:
sort, slot grant (`get_proving_order_capacity` counts
`db.get_committed_orders()`), committed gas cost (fulfill-only estimate
of each committed order, supplied as `committed_orders_fulfill_gas`),
then the greedy balance loop.  `gas_price` and `available_balance_wei`
are the point-in-time chain reads. -/
def apply_capacity_limits (orders : List OrderRequest)
    (config : OrderMonitorConfig) (committed_orders_fulfill_gas : List Nat)
    (gas_price available_balance_wei : Nat) : List OrderRequest :=
  let sorted_orders := sort_candidates orders
  let capacity := get_proving_order_capacity config.max_concurrent_proofs
    committed_orders_fulfill_gas.length
  let capacity_granted := capacity.request_capacity orders.length
  let committed_gas_units := committed_orders_fulfill_gas.sum
  let committed_cost_wei := gas_price * committed_gas_units
  greedy_admission_loop gas_price available_balance_wei capacity_granted sorted_orders
    [] committed_cost_wei

/-- `calculate_order_gas_cost_wei`: lock + fulfill gas units for a
`LockAndFulfill` order, fulfill-only otherwise, times the gas price. -/
def calculate_order_gas_cost_wei (order : OrderRequest) (gas_price : Nat) : Nat :=
  let order_gas_units :=
    if order.fulfillment_type = FulfillmentType.LockAndFulfill then
      order.lock_gas_estimate + order.fulfill_gas_estimate
    else
      order.fulfill_gas_estimate
  gas_price * order_gas_units

/-- Total gas cost in wei of a list of orders, priced the way the greedy
loop of `apply_capacity_limits` prices each candidate. -/
def gas_cost_sum (gas_price : Nat) (orders : List OrderRequest) : Nat :=
  (orders.map (fun order => gas_price * order.fulfill_gas_estimate)).sum

/-- The terminal decision `get_valid_orders` takes for one cache entry
within a tick: write a DB skip (with the logged reason), promote to the
candidate list, or leave the entry cached for a later tick. -/
inductive CacheDecision where
  | skip (reason : String)
  | candidate
  | deferred
deriving DecidableEq, Repr

/-- The decision chain of the `prove_cache` sweep in `get_valid_orders`:
`is_fulfilled` is the answer of `db.is_request_fulfilled`. -/
def prove_cache_decision (order : OrderRequest) (is_fulfilled : Bool)
    (current_block_timestamp now_wall min_deadline : Nat) : CacheDecision :=
  if is_fulfilled then
    CacheDecision.skip "was fulfilled by other"
  else if !(is_within_deadline order current_block_timestamp now_wall min_deadline) then
    CacheDecision.skip "expired"
  else if is_target_time_reached order current_block_timestamp then
    CacheDecision.candidate
  else
    CacheDecision.deferred

/-- The decision chain of the `lock_and_prove_cache` sweep in
`get_valid_orders`: `locked_by` is the locker address returned by
`db.get_request_locked`, `our_address` the
`provider.default_signer_address()` rendering; both are normalized by
lowercasing and trimming leading `0x` exactly as in the source. -/
def lock_cache_decision (order : OrderRequest) (locked_by : Option (List Char))
    (our_address : List Char)
    (current_block_timestamp now_wall min_deadline : Nat) : CacheDecision :=
  if order.lock_expires_at < current_block_timestamp then
    CacheDecision.skip "lock expired before we locked"
  else
    match locked_by with
    | some locker =>
      let our_address_normalized := trimStartMatches0x (toLowerList our_address)
      let locker_address_normalized := trimStartMatches0x (toLowerList locker)
      if locker_address_normalized ≠ our_address_normalized then
        CacheDecision.skip "locked by another prover"
      else
        CacheDecision.candidate
    | none =>
      if !(is_within_deadline order current_block_timestamp now_wall min_deadline) then
        CacheDecision.skip "insufficient deadline"
      else if is_target_time_reached order current_block_timestamp then
        CacheDecision.candidate
      else
        CacheDecision.deferred

/-- Outcome of one `get_valid_orders` sweep: the candidate list it
returns and the list of `(order, reason)` skips it wrote to the DB. -/
structure ValidOrdersResult where
  candidates : List OrderRequest
  skips : List (OrderRequest × String)
deriving DecidableEq, Repr

/-- The per-entry decisions of one `get_valid_orders` call:
`prove_cache_entries` pairs each `prove_cache` order with its
`db.is_request_fulfilled` answer, `lock_cache_entries` pairs each
`lock_and_prove_cache` order with its `db.get_request_locked` answer. -/
def get_valid_orders_decisions
    (prove_cache_entries : List (OrderRequest × Bool))
    (lock_cache_entries : List (OrderRequest × Option (List Char)))
    (our_address : List Char)
    (current_block_timestamp now_wall min_deadline : Nat) :
    List (OrderRequest × CacheDecision) :=
  prove_cache_entries.map (fun e =>
    (e.1, prove_cache_decision e.1 e.2 current_block_timestamp now_wall min_deadline)) ++
  lock_cache_entries.map (fun e =>
    (e.1, lock_cache_decision e.1 e.2 our_address current_block_timestamp now_wall min_deadline))

/-- `get_valid_orders`, as the pair (candidates returned, skips
written), sweeping `prove_cache` first and then `lock_and_prove_cache`
as in the source. -/
def get_valid_orders
    (prove_cache_entries : List (OrderRequest × Bool))
    (lock_cache_entries : List (OrderRequest × Option (List Char)))
    (our_address : List Char)
    (current_block_timestamp now_wall min_deadline : Nat) : ValidOrdersResult :=
  let decisions := get_valid_orders_decisions prove_cache_entries
    lock_cache_entries our_address current_block_timestamp now_wall min_deadline
  { candidates :=
      (decisions.filter (fun p => p.2 = CacheDecision.candidate)).map (fun p => p.1)
  , skips :=
      decisions.filterMap (fun p =>
        match p.2 with
        | CacheDecision.skip reason => some (p.1, reason)
        | _ => none) }

/-- The two order caches, as the key sets they hold. -/
structure MonitorCaches where
  lock_and_prove_cache : List Nat
  prove_cache : List Nat
deriving DecidableEq, Repr

/-- Result of `skip_order`: the caches after invalidation, and whether
the `insert_skipped_request` DB failure was logged.  `skip_order`
returns no error to its caller (its Rust return type is `()`), which
the total return type of this model reflects. -/
structure SkipOrderResult where
  caches : MonitorCaches
  logged_db_error : Bool
deriving DecidableEq, Repr

/-- `skip_order`: attempt the DB write (`db_write_ok` is its outcome,
only logged on failure), then invalidate the cache matching the order's
fulfillment type unconditionally. -/
def skip_order (db_write_ok : Bool) (order : OrderRequest)
    (caches : MonitorCaches) : SkipOrderResult :=
  let logged_db_error := !db_write_ok
  match order.fulfillment_type with
  | FulfillmentType.LockAndFulfill =>
    { caches := { caches with
        lock_and_prove_cache := caches.lock_and_prove_cache.filter (fun k => k != order.id) }
    , logged_db_error }
  | FulfillmentType.FulfillAfterLockExpire | FulfillmentType.FulfillWithoutLocking =>
    { caches := { caches with
        prove_cache := caches.prove_cache.filter (fun k => k != order.id) }
    , logged_db_error }

theorem gas_cost_sum_reverse (gas_price : Nat) (orders : List OrderRequest) :
    gas_cost_sum gas_price orders.reverse = gas_cost_sum gas_price orders := by
  simp [gas_cost_sum, List.map_reverse, List.sum_reverse]

theorem gas_cost_sum_nil (gas_price : Nat) :
    gas_cost_sum gas_price [] = 0 := rfl

theorem greedy_admission_loop_mem (gas_price bal granted : Nat) :
    ∀ (l acc : List OrderRequest) (rc : Nat) (o : OrderRequest),
      o ∈ greedy_admission_loop gas_price bal granted l acc rc → o ∈ acc ∨ o ∈ l := by
  intro l
  induction l with
  | nil =>
    intro acc rc o h
    simp only [greedy_admission_loop, List.mem_reverse] at h
    exact Or.inl h
  | cons a rest ih =>
    intro acc rc o h
    simp only [greedy_admission_loop] at h
    split at h
    · simp only [List.mem_reverse] at h
      exact Or.inl h
    · split at h
      · rcases ih acc rc o h with h1 | h1
        · exact Or.inl h1
        · exact Or.inr (List.mem_cons_of_mem _ h1)
      · rcases ih (a :: acc) _ o h with h1 | h1
        · rcases List.mem_cons.mp h1 with h2 | h2
          · exact Or.inr (h2 ▸ List.mem_cons_self _ _)
          · exact Or.inl h2
        · exact Or.inr (List.mem_cons_of_mem _ h1)

theorem greedy_admission_loop_cost_le (gas_price bal granted : Nat) :
    ∀ (l acc : List OrderRequest) (rc : Nat), rc ≤ bal →
      gas_cost_sum gas_price (greedy_admission_loop gas_price bal granted l acc rc) ≤
        gas_cost_sum gas_price acc + (bal - rc) := by
  intro l
  induction l with
  | nil =>
    intro acc rc h
    simp only [greedy_admission_loop, gas_cost_sum_reverse]
    omega
  | cons a rest ih =>
    intro acc rc h
    simp only [greedy_admission_loop]
    split
    · simp only [gas_cost_sum_reverse]
      omega
    · split
      · exact ih acc rc h
      · rename_i hcap hcost
        have hle : rc + gas_price * a.fulfill_gas_estimate ≤ bal := by omega
        have hrec := ih (a :: acc) (rc + gas_price * a.fulfill_gas_estimate) hle
        have hsum : gas_cost_sum gas_price (a :: acc) =
            gas_price * a.fulfill_gas_estimate + gas_cost_sum gas_price acc := by
          simp [gas_cost_sum]
        omega

theorem greedy_admission_loop_granted_zero (gas_price bal : Nat)
    (l : List OrderRequest) (rc : Nat) :
    greedy_admission_loop gas_price bal 0 l [] rc = [] := by
  cases l <;> simp [greedy_admission_loop]

theorem mem_candidates_of_get_valid_orders
    (proveEntries : List (OrderRequest × Bool))
    (lockEntries : List (OrderRequest × Option (List Char)))
    (our_address : List Char) (nowChain nowWall minDeadline : Nat)
    (o : OrderRequest)
    (h : o ∈ (get_valid_orders proveEntries lockEntries our_address nowChain
        nowWall minDeadline).candidates) :
    ∃ p ∈ get_valid_orders_decisions proveEntries lockEntries our_address
        nowChain nowWall minDeadline,
      p.1 = o ∧ p.2 = CacheDecision.candidate := by
  simp only [get_valid_orders, List.mem_map, List.mem_filter,
    decide_eq_true_eq] at h
  obtain ⟨p, ⟨hp, hpc⟩, hpo⟩ := h
  exact ⟨p, hp, hpo, hpc⟩

theorem mem_skips_of_get_valid_orders
    (proveEntries : List (OrderRequest × Bool))
    (lockEntries : List (OrderRequest × Option (List Char)))
    (our_address : List Char) (nowChain nowWall minDeadline : Nat)
    (o : OrderRequest) (reason : String)
    (h : (o, reason) ∈ (get_valid_orders proveEntries lockEntries our_address
        nowChain nowWall minDeadline).skips) :
    ∃ p ∈ get_valid_orders_decisions proveEntries lockEntries our_address
        nowChain nowWall minDeadline,
      p.1 = o ∧ p.2 = CacheDecision.skip reason := by
  simp only [get_valid_orders, List.mem_filterMap] at h
  obtain ⟨p, hp, hmatch⟩ := h
  refine ⟨p, hp, ?_⟩
  cases hd : p.2 <;> rw [hd] at hmatch <;> simp at hmatch
  exact ⟨hmatch.1, by rw [hmatch.2]⟩

theorem get_valid_orders_decisions_map_id
    (proveEntries : List (OrderRequest × Bool))
    (lockEntries : List (OrderRequest × Option (List Char)))
    (our_address : List Char) (nowChain nowWall minDeadline : Nat) :
    (get_valid_orders_decisions proveEntries lockEntries our_address nowChain
        nowWall minDeadline).map (fun p => p.1.id) =
      proveEntries.map (fun e => e.1.id) ++ lockEntries.map (fun e => e.1.id) := by
  simp only [get_valid_orders_decisions, List.map_append, List.map_map]
  rfl

/-- C4: for every `Capacity` value and request count,
`request_capacity` is capped at 10; `Unlimited` grants `min(n, 10)`;
`Available(k)` grants `min(k, 10)` when `n > k` and `min(n, 10)`
otherwise. -/
theorem C4_request_capacity_semantics (c : Capacity) (k n : Nat) :
    c.request_capacity n ≤ 10 ∧
    Capacity.Unlimited.request_capacity n = min n 10 ∧
    (Capacity.Available k).request_capacity n =
      (if n > k then min k 10 else min n 10) := by
  refine ⟨?_, ?_, ?_⟩
  · cases c with
    | Available m =>
      simp only [Capacity.request_capacity, MAX_PROVING_BATCH_SIZE]
      split
      · exact Nat.min_le_right _ _
      · exact Nat.min_le_right _ _
    | Unlimited =>
      simp only [Capacity.request_capacity, MAX_PROVING_BATCH_SIZE]
      exact Nat.min_le_left _ _
  · simp only [Capacity.request_capacity, MAX_PROVING_BATCH_SIZE, Nat.min_comm]
  · simp only [Capacity.request_capacity, MAX_PROVING_BATCH_SIZE]

/-- C6: `is_within_deadline` is true iff the order's `expiry()` has not
passed the chain block timestamp and the saturating margin
`expiry() − now_wall` is at least `min_deadline` (wall time only for the
margin). -/
theorem C6_is_within_deadline_iff (order : OrderRequest)
    (current_block_timestamp now_wall min_deadline : Nat) :
    is_within_deadline order current_block_timestamp now_wall min_deadline = true ↔
      (current_block_timestamp ≤ order.expiry ∧
        min_deadline ≤ order.expiry - now_wall) := by
  simp only [is_within_deadline]
  split
  · rename_i h1
    simp only [Bool.false_eq_true, false_iff]
    omega
  · split
    · rename_i h1 h2
      simp only [Bool.false_eq_true, false_iff]
      omega
    · rename_i h1 h2
      simp only [true_iff]
      omega

/-- C8: the `sort_by` step of `apply_capacity_limits` permutes the
candidates so that every primary order precedes every non-primary
order, and within one primary class expirations are non-decreasing. -/
theorem C8_sort_primary_then_expiration (orders : List OrderRequest) :
    (sort_candidates orders).Perm orders ∧
      List.Pairwise (fun a b =>
          (b.is_primary = true → a.is_primary = true) ∧
          (a.is_primary = b.is_primary → a.expiration ≤ b.expiration))
        (sort_candidates orders) := by
  constructor
  · exact List.perm_insertionSort order_sort_le orders
  · have h := List.sorted_insertionSort order_sort_le orders
    refine List.Pairwise.imp ?_ h
    intro a b hab
    unfold order_sort_le at hab
    cases hpa : a.is_primary <;> cases hpb : b.is_primary <;>
      rw [hpa, hpb] at hab <;> simp [hpa, hpb] at hab ⊢ <;> try exact hab

/-- C9 (implicit): with `max_concurrent_proofs = Some max` and at least
`max` committed orders, `get_proving_order_capacity` saturates to
`Available(0)`, `request_capacity` grants 0, and `apply_capacity_limits`
admits no order that tick. -/
theorem C9_capacity_saturates_at_zero (max : Nat) (committed : List Nat)
    (orders : List OrderRequest) (config : OrderMonitorConfig)
    (gas_price available_balance_wei n : Nat)
    (hmax : config.max_concurrent_proofs = some max)
    (hcommitted : max ≤ committed.length) :
    get_proving_order_capacity config.max_concurrent_proofs committed.length =
        Capacity.Available 0 ∧
      (Capacity.Available 0).request_capacity n = 0 ∧
      apply_capacity_limits orders config committed gas_price
          available_balance_wei = [] := by
  have hcap : get_proving_order_capacity config.max_concurrent_proofs
      committed.length = Capacity.Available 0 := by
    rw [hmax]
    simp only [get_proving_order_capacity]
    congr 1
    omega
  have h0 : ∀ m : Nat, (Capacity.Available 0).request_capacity m = 0 := by
    intro m
    simp only [Capacity.request_capacity, MAX_PROVING_BATCH_SIZE]
    split
    · simp
    · rename_i h
      have : m = 0 := by omega
      simp [this]
  refine ⟨hcap, h0 n, ?_⟩
  simp only [apply_capacity_limits]
  rw [hcap, h0]
  exact greedy_admission_loop_granted_zero _ _ _ _

/-- Witness for C9 at `max = 2` with three committed orders. -/
theorem C9_capacity_saturates_at_zero_witness :
    get_proving_order_capacity (some 2) ([5, 5, 5] : List Nat).length =
        Capacity.Available 0 ∧
      (Capacity.Available 0).request_capacity 4 = 0 ∧
      apply_capacity_limits [] ⟨0, none, some 2, 0, 0⟩ [5, 5, 5] 1 100 = [] :=
  C9_capacity_saturates_at_zero 2 [5, 5, 5] [] ⟨0, none, some 2, 0, 0⟩ 1 100 4
    rfl (by decide)

/-- C3 counterexample: when the committed orders' gas cost (here
`1 wei/unit × 10 units = 10 wei`) already exceeds the wallet balance
(5 wei), `apply_capacity_limits` admits nothing, and the claimed
inequality `committed cost + Σ admitted cost ≤ balance` is false. -/
theorem C3_balance_admission_counterexample :
    apply_capacity_limits
        [⟨1, false, 10, 10, 10, some 0, none,
            FulfillmentType.FulfillWithoutLocking, 0, 0⟩]
        ⟨0, none, none, 0, 0⟩ [10] 1 5 = [] ∧
    ¬ (1 * ([10] : List Nat).sum +
        gas_cost_sum 1
          (apply_capacity_limits
            [⟨1, false, 10, 10, 10, some 0, none,
                FulfillmentType.FulfillWithoutLocking, 0, 0⟩]
            ⟨0, none, none, 0, 0⟩ [10] 1 5) ≤ 5) := by
  decide

/-- C3 (amended): provided the committed cost does not already exceed
the wallet balance, the admitted list satisfies
`committed cost + Σ admitted gas cost ≤ balance`; and an over-budget
candidate is skipped without terminating the greedy loop, so later
(cheaper) candidates are still considered. -/
theorem C3_balance_admission (orders : List OrderRequest)
    (config : OrderMonitorConfig) (committed : List Nat)
    (gas_price available_balance_wei : Nat)
    (h : gas_price * committed.sum ≤ available_balance_wei) :
    gas_price * committed.sum +
        gas_cost_sum gas_price
          (apply_capacity_limits orders config committed gas_price
            available_balance_wei) ≤ available_balance_wei ∧
    ∀ (order : OrderRequest) (rest acc : List OrderRequest)
      (running_cost capacity_granted : Nat),
      acc.length < capacity_granted →
      available_balance_wei < running_cost + gas_price * order.fulfill_gas_estimate →
      greedy_admission_loop gas_price available_balance_wei capacity_granted
          (order :: rest) acc running_cost =
        greedy_admission_loop gas_price available_balance_wei capacity_granted rest acc
          running_cost := by
  constructor
  · have hb := greedy_admission_loop_cost_le gas_price available_balance_wei
      ((get_proving_order_capacity config.max_concurrent_proofs
          committed.length).request_capacity orders.length)
      (sort_candidates orders) [] (gas_price * committed.sum) h
    simp only [apply_capacity_limits]
    have hnil : gas_cost_sum gas_price ([] : List OrderRequest) = 0 := rfl
    omega
  · intro order rest acc running_cost capacity_granted hlen hcost
    simp only [greedy_admission_loop]
    rw [if_neg (by omega), if_pos hcost]

/-- Witness for C3 at a two-candidate instance: balance 6, no committed
cost; and a concrete skipped-but-not-breaking step of the greedy loop. -/
theorem C3_balance_admission_witness :
    1 * ([] : List Nat).sum +
        gas_cost_sum 1
          (apply_capacity_limits
            [⟨1, false, 10, 10, 10, some 0, none,
                FulfillmentType.LockAndFulfill, 0, 5⟩,
             ⟨2, false, 11, 11, 11, some 0, none,
                FulfillmentType.LockAndFulfill, 0, 2⟩]
            ⟨0, none, none, 0, 0⟩ [] 1 6) ≤ 6 ∧
    greedy_admission_loop 1 6 10
        [⟨3, false, 12, 12, 12, some 0, none,
            FulfillmentType.LockAndFulfill, 0, 2⟩] [] 5 =
      greedy_admission_loop 1 6 10 [] [] 5 := by
  have h := C3_balance_admission
    [⟨1, false, 10, 10, 10, some 0, none, FulfillmentType.LockAndFulfill, 0, 5⟩,
     ⟨2, false, 11, 11, 11, some 0, none, FulfillmentType.LockAndFulfill, 0, 2⟩]
    ⟨0, none, none, 0, 0⟩ [] 1 6 (by decide)
  exact ⟨h.1,
    h.2 ⟨3, false, 12, 12, 12, some 0, none, FulfillmentType.LockAndFulfill, 0, 2⟩
      [] [] 5 10 (by decide) (by decide)⟩

/-- C10: `skip_order` logs (and does not propagate) a failed
`insert_skipped_request` write, and invalidates the cache matching the
order's fulfillment type regardless of the write's outcome, leaving the
other cache untouched. -/
theorem C10_skip_order_invalidates (db_write_ok : Bool)
    (order : OrderRequest) (caches : MonitorCaches) :
    (skip_order db_write_ok order caches).logged_db_error = !db_write_ok ∧
    (skip_order db_write_ok order caches).caches =
      (skip_order true order caches).caches ∧
    order.id ∉
      (if order.fulfillment_type = FulfillmentType.LockAndFulfill then
        (skip_order db_write_ok order caches).caches.lock_and_prove_cache
      else
        (skip_order db_write_ok order caches).caches.prove_cache) ∧
    (if order.fulfillment_type = FulfillmentType.LockAndFulfill then
      (skip_order db_write_ok order caches).caches.prove_cache = caches.prove_cache
    else
      (skip_order db_write_ok order caches).caches.lock_and_prove_cache =
        caches.lock_and_prove_cache) := by
  cases h : order.fulfillment_type <;>
    simp [skip_order, h, List.mem_filter]

/-- C5 (amended): within one tick with distinct order ids across the two
caches, an order admitted by `apply_capacity_limits` never also has a
DB skip written by `get_valid_orders` (and this `apply_capacity_limits`
writes no skips at all); but a candidate may be neither admitted nor
skipped, see the counterexample. -/
theorem C5_admitted_never_skipped
    (proveEntries : List (OrderRequest × Bool))
    (lockEntries : List (OrderRequest × Option (List Char)))
    (our_address : List Char) (nowChain nowWall minDeadline : Nat)
    (config : OrderMonitorConfig) (committed : List Nat)
    (gas_price available_balance_wei : Nat)
    (hnodup : (proveEntries.map (fun e => e.1.id) ++
        lockEntries.map (fun e => e.1.id)).Nodup) :
    ∀ o ∈ apply_capacity_limits
        (get_valid_orders proveEntries lockEntries our_address nowChain
          nowWall minDeadline).candidates
        config committed gas_price available_balance_wei,
      ∀ o2 reason,
        (o2, reason) ∈ (get_valid_orders proveEntries lockEntries our_address
            nowChain nowWall minDeadline).skips →
        o2.id ≠ o.id := by
  intro o ho o2 reason hskip heq
  simp only [apply_capacity_limits] at ho
  have hmem := greedy_admission_loop_mem gas_price available_balance_wei _ _ _ _ _ ho
  rcases hmem with hmem | hmem
  · simp at hmem
  · have hocand : o ∈ (get_valid_orders proveEntries lockEntries our_address
        nowChain nowWall minDeadline).candidates :=
      (List.perm_insertionSort order_sort_le _).mem_iff.mp hmem
    obtain ⟨p, hp, hpo, hpc⟩ := mem_candidates_of_get_valid_orders _ _ _ _ _ _ _ hocand
    obtain ⟨q, hq, hqo, hqs⟩ := mem_skips_of_get_valid_orders _ _ _ _ _ _ _ _ hskip
    have hmap : ((get_valid_orders_decisions proveEntries lockEntries our_address
        nowChain nowWall minDeadline).map (fun r => r.1.id)).Nodup := by
      rw [get_valid_orders_decisions_map_id]
      exact hnodup
    have hpq : p = q := by
      refine List.inj_on_of_nodup_map hmap hp hq ?_
      rw [hpo, hqo, heq]
    rw [hpq, hqs] at hpc
    exact absurd hpc (by simp)

/-- Witness for C5: one skipped `prove_cache` entry (already fulfilled)
and one admitted `lock_and_prove_cache` candidate. -/
theorem C5_admitted_never_skipped_witness :
    (⟨3, false, 100, 100, 100, some 0, none,
        FulfillmentType.FulfillAfterLockExpire, 0, 0⟩ : OrderRequest).id ≠
      (⟨7, false, 100, 100, 100, some 0, none,
          FulfillmentType.LockAndFulfill, 0, 0⟩ : OrderRequest).id :=
  C5_admitted_never_skipped
    [(⟨3, false, 100, 100, 100, some 0, none,
        FulfillmentType.FulfillAfterLockExpire, 0, 0⟩, true)]
    [(⟨7, false, 100, 100, 100, some 0, none,
        FulfillmentType.LockAndFulfill, 0, 0⟩, none)]
    [] 10 10 0 ⟨0, none, none, 0, 0⟩ [] 1 100 (by decide)
    ⟨7, false, 100, 100, 100, some 0, none,
      FulfillmentType.LockAndFulfill, 0, 0⟩ (by decide)
    ⟨3, false, 100, 100, 100, some 0, none,
      FulfillmentType.FulfillAfterLockExpire, 0, 0⟩
    "was fulfilled by other" (by decide)

/-- C5 counterexample: a candidate that fails the balance check is
dropped from the admitted list but no skip is written for it in that
tick, so "either admitted or skipped" is false: here the single
candidate is neither. -/
theorem C5_candidate_neither_admitted_nor_skipped :
    (⟨1, false, 100, 100, 100, some 0, none,
        FulfillmentType.LockAndFulfill, 0, 1⟩ : OrderRequest) ∈
      (get_valid_orders []
        [(⟨1, false, 100, 100, 100, some 0, none,
            FulfillmentType.LockAndFulfill, 0, 1⟩, none)]
        [] 10 10 0).candidates ∧
    apply_capacity_limits
        (get_valid_orders []
          [(⟨1, false, 100, 100, 100, some 0, none,
              FulfillmentType.LockAndFulfill, 0, 1⟩, none)]
          [] 10 10 0).candidates
        ⟨0, none, none, 0, 0⟩ [] 1 0 = [] ∧
    (get_valid_orders []
      [(⟨1, false, 100, 100, 100, some 0, none,
          FulfillmentType.LockAndFulfill, 0, 1⟩, none)]
      [] 10 10 0).skips = [] := by
  decide

/-- C7: on a generic (`MarketError::Error`) lock failure whose message
contains `InsufficientBalance`, the result is `InsufficientBalance`
(code `[B-OM-010]`) iff the lowercased message contains the prover's
lowercased, `0x`-stripped address, and otherwise `LockTxFailed` with the
`Requestor has insufficient balance at lock time: ` prefix. -/
theorem C7_insufficient_balance_classification (prover_addr e : List Char)
    (h : containsSubList e "InsufficientBalance".toList = true) :
    (lock_order_generic_error prover_addr e = OrderMonitorErr.InsufficientBalance ↔
      containsSubList (toLowerList e) (replaceAll0x (toLowerList prover_addr)) = true) ∧
    (containsSubList (toLowerList e) (replaceAll0x (toLowerList prover_addr)) = false →
      lock_order_generic_error prover_addr e =
        OrderMonitorErr.LockTxFailed
          ("Requestor has insufficient balance at lock time: ".toList ++ e)) ∧
    OrderMonitorErr.InsufficientBalance.code = "[B-OM-010]".toList := by
  simp only [lock_order_generic_error]
  rw [if_pos h]
  cases hc : containsSubList (toLowerList e) (replaceAll0x (toLowerList prover_addr)) <;>
    simp [hc, OrderMonitorErr.code]

/-- Witness for C7: message containing both `InsufficientBalance` and
the prover's normalized address. -/
theorem C7_insufficient_balance_classification_witness :
    containsSubList ("InsufficientBalance 0xab".toList)
        ("InsufficientBalance".toList) = true ∧
    lock_order_generic_error ("0xAB".toList) ("InsufficientBalance 0xab".toList) =
      OrderMonitorErr.InsufficientBalance :=
  ⟨by decide,
    ((C7_insufficient_balance_classification ("0xAB".toList)
        ("InsufficientBalance 0xab".toList) (by decide)).1).mpr (by decide)⟩

/-- The candidate set of the in-file test `test_multiple_orders_khz_capacity`:
five `LockAndFulfill` orders with 120-second deadlines and cycle counts
1e6 … 5e6 (gas estimates and prices set so the balance check is inert). -/
def khz_test_orders : List OrderRequest :=
  [⟨1, false, 120, 120, 120, some 0, some 1000000,
      FulfillmentType.LockAndFulfill, 0, 0⟩,
   ⟨2, false, 120, 120, 120, some 0, some 2000000,
      FulfillmentType.LockAndFulfill, 0, 0⟩,
   ⟨3, false, 120, 120, 120, some 0, some 3000000,
      FulfillmentType.LockAndFulfill, 0, 0⟩,
   ⟨4, false, 120, 120, 120, some 0, some 4000000,
      FulfillmentType.LockAndFulfill, 0, 0⟩,
   ⟨5, false, 120, 120, 120, some 0, some 5000000,
      FulfillmentType.LockAndFulfill, 0, 0⟩]

/-- The config of that test: `peak_prove_khz = Some 100`, everything
else off. -/
def khz_test_config : OrderMonitorConfig := ⟨0, some 100, none, 0, 0⟩

/-- C1: `apply_capacity_limits` admits all five orders even though
`peak_prove_khz` is set and the five orders' summed cycles (15e6) exceed
what 100 kHz can prove within their 120-second deadlines (12e6 cycles):
the function contains no proving-throughput test at all (it never reads
`peak_prove_khz`, `total_cycles`, `additional_proof_cycles` or
`batch_buffer_time_secs`), contradicting the in-file tests
`test_multiple_orders_khz_capacity` (expects 4 admitted here),
`test_apply_capacity_limits_committed_work_too_large` and
`test_apply_capacity_limits_skip_proof_time_past_expiration` (expect
skips with reason "cannot be completed before its expiration"). -/
theorem C1_no_throughput_test :
    apply_capacity_limits khz_test_orders khz_test_config [] 0 0 =
        khz_test_orders ∧
    khz_test_config.peak_prove_khz = some 100 ∧
    120 * (khz_test_config.peak_prove_khz.getD 0 * 1000) <
      (khz_test_orders.map (fun o => o.total_cycles.getD 0)).sum := by
  decide

/-- A `LockAndFulfill` candidate with lock gas estimate 2 and fulfill
gas estimate 3, as in the balance test scenario of
`test_insufficient_balance_committed_orders` (scaled down). -/
def balance_test_order (i : Nat) : OrderRequest :=
  ⟨i, false, 100, 100, 100, some 0, none,
    FulfillmentType.LockAndFulfill, 2, 3⟩

/-- C2: the greedy balance loop of `apply_capacity_limits` prices every
candidate at the fulfill-only estimate (cost 3 here), never calling
`calculate_order_gas_cost_wei` (cost 5 = lock 2 + fulfill 3 for a
`LockAndFulfill` order): with balance 6 it admits both candidates,
whereas under the lock+fulfill pricing the claim (and the in-file test
`test_insufficient_balance_committed_orders`) describes, only one would
fit (5 + 5 > 6). -/
theorem C2_greedy_uses_fulfill_only_estimate :
    apply_capacity_limits [balance_test_order 1, balance_test_order 2]
        ⟨0, none, none, 0, 0⟩ [] 1 6 =
      [balance_test_order 1, balance_test_order 2] ∧
    calculate_order_gas_cost_wei (balance_test_order 1) 1 = 5 ∧
    (balance_test_order 1).fulfillment_type = FulfillmentType.LockAndFulfill ∧
    1 * (balance_test_order 1).fulfill_gas_estimate = 3 := by
  decide
